import Mathlib

/-!
Verification development for the Chief-of-Staff orchestration core
(`InterpreterAgent`, `QualityAgent`, `ChiefOfStaffAgent`).  The TypeScript
source is shallowly embedded: JavaScript runtime values become the inductive
`JValue` (with `undefined` for the JS `undefined`), records become structures,
`Date.now()` calls become explicit natural-number oracle parameters, and the
agent registry (`this.agents`) becomes a function `AgentType → Option Agent`.
All definitions are executable and follow the source line by line.
-/

namespace ChiefOfStaff

/-- The `AgentType` union of the source: the eight capability tags. -/
inductive AgentType where
  | chief | interpreter | google | microsoft | linkedin | content | qa | task
deriving DecidableEq, Repr, Inhabited

/-- String form of an `AgentType`, as used in template strings of the source. -/
def AgentType.toStr : AgentType → String
  | .chief => "chief"
  | .interpreter => "interpreter"
  | .google => "google"
  | .microsoft => "microsoft"
  | .linkedin => "linkedin"
  | .content => "content"
  | .qa => "qa"
  | .task => "task"

instance : BEq AgentType := ⟨fun a b => decide (a = b)⟩

instance : LawfulBEq AgentType where
  eq_of_beq h := of_decide_eq_true h
  rfl := decide_eq_true rfl

/-- The `AgentResponse.status` union of the source. -/
inductive Status where
  | success | error | pending | requires_input
deriving DecidableEq, Repr, Inhabited

instance : BEq Status := ⟨fun a b => decide (a = b)⟩

instance : LawfulBEq Status where
  eq_of_beq h := of_decide_eq_true h
  rfl := decide_eq_true rfl

/-- Message priority of the source (`low`/`medium`/`high`/`urgent`). -/
inductive Priority where
  | low | medium | high | urgent
deriving DecidableEq, Repr, Inhabited

/-- Intent complexity of the source (`low`/`medium`/`high`). -/
inductive Complexity where
  | low | medium | high
deriving DecidableEq, Repr, Inhabited

/-- Issue severity of the source (`low`/`medium`/`high`). -/
inductive Severity where
  | low | medium | high
deriving DecidableEq, Repr, Inhabited

instance : BEq Severity := ⟨fun a b => decide (a = b)⟩

instance : LawfulBEq Severity where
  eq_of_beq h := of_decide_eq_true h
  rfl := decide_eq_true rfl

/-- JavaScript runtime values as far as the orchestration core manipulates
them: `undefined` is the JS `undefined` (an absent field), the rest mirror
`null`, booleans, (integral) numbers, strings, arrays and plain objects.
Objects are association lists in insertion order. -/
inductive JValue where
  | undefined
  | null
  | bool (b : Bool)
  | num (n : Int)
  | str (s : String)
  | arr (elems : List JValue)
  | obj (fields : List (String × JValue))

/-- JS truthiness: `undefined`, `null`, `false`, `0` and `""` are falsy,
every other value (all objects and arrays included) is truthy. -/
def JValue.truthy : JValue → Bool
  | .undefined => false
  | .null => false
  | .bool b => b
  | .num n => decide (n ≠ 0)
  | .str s => decide (s ≠ "")
  | .arr _ => true
  | .obj _ => true

/-- Whether a value is `null` or `undefined` (property access on such a
value throws a `TypeError` in JS). -/
def JValue.isNullish : JValue → Bool
  | .undefined => true
  | .null => true
  | _ => false

/-- The JS `typeof` operator restricted to the embedded values; note
`typeof null === "object"` and arrays are `"object"` too. -/
def JValue.typeofStr : JValue → String
  | .undefined => "undefined"
  | .null => "object"
  | .bool _ => "boolean"
  | .num _ => "number"
  | .str _ => "string"
  | .arr _ => "array-object"
  | .obj _ => "object"

/-- Strict equality of a value against a string literal (`v === "lit"`). -/
def JValue.isStr : JValue → String → Bool
  | .str t, s => decide (t = s)
  | _, _ => false

/-- Property read `v.k` on an embedded value: a lookup on plain objects,
`undefined` on every other non-nullish value (primitives box, arrays have
no such named element).  Callers model the JS `TypeError` on nullish
receivers explicitly. -/
def jsGet : JValue → String → JValue
  | .obj fields, k =>
    match fields.find? (fun p => decide (p.1 = k)) with
    | some p => p.2
    | none => .undefined
  | _, _ => .undefined

/-- The JS `.length` read as a value: character count of strings, element
count of arrays, the `length` property of plain objects, `undefined`
otherwise. -/
def lenVal : JValue → JValue
  | .str s => .num (Int.ofNat s.length)
  | .arr elems => .num (Int.ofNat elems.length)
  | .obj fields => jsGet (.obj fields) "length"
  | _ => .undefined

/-- The JS comparison `v > n` for a numeric bound: only number-to-number
comparisons are true, any `undefined`/non-number left side yields false
(as `undefined > n` does in JS). -/
def numGT (v : JValue) (n : Int) : Bool :=
  match v with
  | .num m => decide (m > n)
  | _ => false

/-- The JS `Array.prototype.join(sep)` on lists: elements glued
with the separator (structural recursion). -/
def joinWith (sep : String) : List String → String
  | [] => ""
  | [x] => x
  | x :: xs => x ++ sep ++ joinWith sep xs

/-- JS string coercion as used by `RegExp.test`: identity on strings,
decimal rendering of numbers, the usual spellings for the other
primitives, comma-joined elements for arrays (with nullish elements
rendered empty) and `[object Object]` for plain objects. -/
def jsToString : JValue → String
  | .undefined => "undefined"
  | .null => "null"
  | .bool b => if b then "true" else "false"
  | .num n => toString n
  | .str s => s
  | .arr elems => joinWith "," (elems.map fun v =>
      match v with
      | .undefined => ""
      | .null => ""
      | .bool b => if b then "true" else "false"
      | .num n => toString n
      | .str s => s
      | .arr _ => ""
      | .obj _ => "[object Object]")
  | .obj _ => "[object Object]"

/-- A context mapping (`Record<string, any>`), in insertion order. -/
abbrev Ctx := List (String × JValue)

/-- Context lookup `context.k` (first binding wins; the construction below
keeps keys unique exactly as JS object spreads do). -/
def ctxGet (ctx : Ctx) (k : String) : JValue :=
  match ctx.find? (fun p => decide (p.1 = k)) with
  | some p => p.2
  | none => .undefined

/-- The object spread `{...ctx, k: v}`: the binding for `k` is replaced by
`v` (modelled by dropping any old binding and appending; key order is
irrelevant to every lookup the core performs). -/
def ctxSet (ctx : Ctx) (k : String) (v : JValue) : Ctx :=
  (ctx.filter fun p => decide (p.1 ≠ k)) ++ [(k, v)]

/-- The `AgentMessage.payload` record of the source. -/
structure MessagePayload where
  task : String
  context : Ctx
  priority : Priority
  validation_required : Bool

/-- The `AgentMessage.metadata` record of the source. -/
structure MessageMetadata where
  user_id : String
  session_id : String
  conversation_id : String

/-- The `AgentMessage` envelope of the source.  `timestamp` is the epoch
value of the `Date` the source stores; the field names `from`/`to` are
Lean keywords and are embedded as `sender`/`recipient`. -/
structure AgentMessage where
  id : String
  sender : AgentType
  recipient : AgentType
  timestamp : Nat
  payload : MessagePayload
  metadata : MessageMetadata

/-- The `AgentResponse` record of the source; optional fields are
`Option`s except `data`, whose absence is the embedded `JValue.undefined`. -/
structure AgentResponse where
  id : String
  status : Status
  data : JValue := .undefined
  error : Option String := none
  next_agent : Option AgentType := none
  validation_passed : Option Bool := none
  processing_time : Option Nat := none

/-- The `UserIntent` record of the source; confidences are rationals (the numeric
literals of the source are exact decimals). -/
structure UserIntent where
  intent : String
  entities : Ctx
  confidence : ℚ
  platforms : List String
  complexity : Complexity

/-- One issue of a `ValidationResult`. -/
structure Issue where
  type : String
  message : String
  severity : Severity
deriving DecidableEq, Repr

/-- The `ValidationResult` record of the source. -/
structure ValidationResult where
  passed : Bool
  issues : List Issue
  recommendations : List String
deriving DecidableEq, Repr

/-- The helper `BaseAgent.createResponse`: a fresh response whose id is
`agentType_Date.now()` and whose `processing_time` is initialised to the
absolute `Date.now()` value (the source calls `Date.now()` twice here; the
single oracle `now` stands for both readings). -/
def createResponse (agentType : AgentType) (now : Nat) (status : Status)
    (data : JValue) (error : Option String) : AgentResponse :=
  { id := agentType.toStr ++ "_" ++ toString now
    status := status
    data := data
    error := error
    next_agent := none
    validation_passed := none
    processing_time := some now }

/-- A capability agent: the uniform contract `process(envelope) → Response`
(the `async` of the source is irrelevant to the values produced, so an
agent is a function on envelopes). -/
structure Agent where
  process : AgentMessage → AgentResponse

/- ### Intent classifier (`InterpreterAgent`) -/

/-- One rule of the ordered list of `parseIntent`: the regexes of the source are
plain case-insensitive alternations of literal words without anchors, so a
pattern of a rule is its list of alternative substrings. -/
structure IntentRule where
  alts : List String
  name : String
  weight : ℚ

/-- Whether `pat` is a prefix of `cs` (character lists). -/
def prefixMatch : List Char → List Char → Bool
  | [], _ => true
  | _ :: _, [] => false
  | a :: ps, c :: cs => a == c && prefixMatch ps cs

/-- Whether `pat` occurs as a contiguous substring of `cs`. -/
def infixMatch (pat : List Char) : List Char → Bool
  | [] => prefixMatch pat []
  | c :: cs => prefixMatch pat (c :: cs) || infixMatch pat cs

/-- The JS `pattern.test(input)` for an alternation of literals under the `i`
flag: some alternative occurs as a substring of the lowercased input. -/
def patternTest (alts : List String) (input : String) : Bool :=
  alts.any fun a => infixMatch a.data (input.data.map Char.toLower)

/-- The fixed ordered rule list of `parseIntent`. -/
def intentRules : List IntentRule :=
  [ ⟨["schedule", "meeting", "calendar", "appointment"], "schedule_meeting", 9/10⟩
  , ⟨["email", "send", "draft", "compose"], "email_action", 8/10⟩
  , ⟨["linkedin", "post", "share", "network"], "linkedin_action", 8/10⟩
  , ⟨["task", "todo", "remind", "deadline"], "task_management", 7/10⟩
  , ⟨["search", "find", "look"], "search_action", 6/10⟩
  , ⟨["create", "make", "generate"], "content_creation", 7/10⟩ ]

/-- The `for`-loop of `parseIntent`: first matching rule wins. -/
def firstIntent : List IntentRule → String → String × ℚ
  | [], _ => ("general_query", 1/2)
  | r :: rs, input =>
    if patternTest r.alts input then (r.name, r.weight) else firstIntent rs input

/-- The classifier `InterpreterAgent.parseIntent`: name and confidence of the first
matching rule, `general_query`/0.5 when none matches.  Total, hence the
never-fails behaviour of the source. -/
def parseIntent (input : String) : String × ℚ :=
  firstIntent intentRules input

/-- The scorer `InterpreterAgent.assessComplexity`: the incremental score of the
source (`+2` multi-platform, `+1` more than two people, `+1` structurally
complex intent, `+1` date or time entity) mapped to a level. -/
def assessComplexity (intentName : String) (entities : Ctx)
    (platforms : List String) : Complexity :=
  let c0 : Nat := 0
  let c1 := if platforms.length > 1 then c0 + 2 else c0
  let c2 := if (ctxGet entities "people").truthy
               && numGT (lenVal (ctxGet entities "people")) 2 then c1 + 1 else c1
  let c3 := if intentName ∈ ["schedule_meeting", "content_creation"]
            then c2 + 1 else c2
  let c4 := if (ctxGet entities "date").truthy || (ctxGet entities "time").truthy
            then c3 + 1 else c3
  if c4 ≥ 3 then .high else if c4 ≥ 1 then .medium else .low

/- ### Execution planner (`ChiefOfStaffAgent.createExecutionPlan`) -/

/-- An execution plan: capability names plus the parallel flag. -/
structure ExecutionPlan where
  agents : List AgentType
  parallel : Bool
deriving DecidableEq, Repr

/-- The planner `ChiefOfStaffAgent.createExecutionPlan`: the static routing table of
the source (an object literal indexed by the intent name, absent keys
falling back to a single `content` agent, sequential).  Note the
`schedule_meeting` entry sets `parallel: true` unconditionally, and its
agent list defaults to `[microsoft]` whenever `google` was not detected,
whether or not `microsoft` was. -/
def createExecutionPlan (intent : UserIntent) : ExecutionPlan :=
  if intent.intent = "schedule_meeting" then
    { agents :=
        if intent.platforms.contains "google" && intent.platforms.contains "microsoft"
        then [.google, .microsoft]
        else if intent.platforms.contains "google" then [.google] else [.microsoft]
      parallel := true }
  else if intent.intent = "email_action" then
    { agents := [.content, if intent.platforms.contains "google" then .google else .microsoft]
      parallel := false }
  else if intent.intent = "linkedin_action" then
    { agents := [.content, .linkedin], parallel := false }
  else if intent.intent = "task_management" then
    { agents := [.task], parallel := false }
  else if intent.intent = "content_creation" then
    { agents := [.content], parallel := false }
  else
    { agents := [.content], parallel := false }

/- ### Quality gate (`QualityAgent`) -/

/-- A JS word character (`\w`): ASCII letter, digit or underscore. -/
def isWordChar (c : Char) : Bool :=
  c.isAlphanum || c == '_'

/-- Consume exactly `n` digit characters, returning the remainder. -/
def consumeDigits : Nat → List Char → Option (List Char)
  | 0, rest => some rest
  | _ + 1, [] => none
  | n + 1, c :: rest => if c.isDigit then consumeDigits n rest else none

/-- Consume one literal character. -/
def consumeLit (a : Char) : List Char → Option (List Char)
  | [] => none
  | c :: rest => if c == a then some rest else none

/-- Consume a literal word (used for the keyword alternatives). -/
def consumeWord : List Char → List Char → Option (List Char)
  | [], rest => some rest
  | _ :: _, [] => none
  | a :: as, c :: rest => if c == a then consumeWord as rest else none

/-- Scan for a `\b<pat>\b`-anchored match: at each position whose
predecessor is not a word character (`prevW` tracks it; the patterns all
start with a word character, so the left boundary is exactly `!prevW`),
try `pat` and require the right boundary (end of input or a non-word
character) on the remainder. -/
def scanBounded (pat : List Char → Option (List Char)) : Bool → List Char → Bool
  | _, [] => false
  | prevW, c :: rest =>
    (!prevW && (match pat (c :: rest) with
                | some [] => true
                | some (d :: _) => !isWordChar d
                | none => false))
    || scanBounded pat (isWordChar c) rest

/-- The regex `/\b(password|confidential|secret|private key)\b/i` of
`checkContentSafety`, evaluated on the lowercased content. -/
def hasSensitiveKeyword (content : String) : Bool :=
  [ "password", "confidential", "secret", "private key" ].any fun w =>
    scanBounded (consumeWord w.data) false (content.data.map Char.toLower)

/-- The SSN-shaped regex `/\b\d{3}-\d{2}-\d{4}\b/` of `checkContentSafety`. -/
def ssnAt (cs : List Char) : Option (List Char) :=
  (consumeDigits 3 cs).bind fun r1 =>
    (consumeLit '-' r1).bind fun r2 =>
      (consumeDigits 2 r2).bind fun r3 =>
        (consumeLit '-' r3).bind fun r4 =>
          consumeDigits 4 r4

/-- Whether the SSN pattern matches somewhere in `content`. -/
def hasSSNPattern (content : String) : Bool :=
  scanBounded ssnAt false content.data

/-- The credit-card regex `/\b\d{16}\b/` of `checkContentSafety`: a run of
exactly sixteen digits delimited by word boundaries. -/
def hasCard16 (content : String) : Bool :=
  scanBounded (consumeDigits 16) false content.data

/-- The scanner `QualityAgent.checkContentSafety`: `none` when safe, otherwise the
fixed reason string of the source. -/
def checkContentSafety (content : String) : Option String :=
  if hasSensitiveKeyword content || hasSSNPattern content || hasCard16 content
  then some "Potentially sensitive information detected"
  else none

/-- Structural check of `validateOutput`: the test `!data`, or `typeof data` not being the object tag. -/
def structureIssues (data : JValue) : List Issue :=
  if !data.truthy || !(data.typeofStr == "object") then
    [⟨"structure", "Invalid data structure received", .high⟩]
  else []

/-- Content-safety check of `validateOutput`, guarded by
the conjunction of `typeof data` being the object tag and `data.content` truthy. -/
def safetyIssues (data : JValue) : List Issue :=
  if data.typeofStr == "object" && (jsGet data "content").truthy then
    match checkContentSafety (jsToString (jsGet data "content")) with
    | some reason => [⟨"safety", "Content safety issue: " ++ reason, .high⟩]
    | none => []
  else []

/-- Platform-limit check of `validateOutput`: only for
`sourceAgent` strictly equal to the linkedin tag with a truthy `data.post` longer than 3000,
a medium issue plus the trim recommendation. -/
def platformIssues (data sourceAgent : JValue) : List Issue × List String :=
  if sourceAgent.isStr "linkedin" && (jsGet data "post").truthy
     && numGT (lenVal (jsGet data "post")) 3000 then
    ([⟨"platform_limit", "LinkedIn post exceeds character limit", .medium⟩],
     ["Trim content to under 3000 characters"])
  else ([], [])

/-- Temporal check of `validateOutput`: a truthy `data.datetime` parsed by
`new Date(...)` (the oracle `parseDate`; `none` stands for an invalid
date, whose comparison with now is false in JS) strictly before `dateNow`
is a high issue. -/
def temporalIssues (parseDate : JValue → Option Int) (dateNow : Int)
    (data : JValue) : List Issue :=
  if (jsGet data "datetime").truthy then
    match parseDate (jsGet data "datetime") with
    | some t => if t < dateNow then [⟨"temporal", "Scheduled time is in the past", .high⟩] else []
    | none => []
  else []

/-- The gate core `QualityAgent.validateOutput`: the four checks in source order, pass
exactly when no high-severity issue was pushed. -/
def validateOutput (parseDate : JValue → Option Int) (dateNow : Int)
    (data sourceAgent : JValue) : ValidationResult :=
  let issues := structureIssues data ++ safetyIssues data
    ++ (platformIssues data sourceAgent).1 ++ temporalIssues parseDate dateNow data
  { passed := (issues.filter fun i => i.severity == .high).length == 0
    issues := issues
    recommendations := (platformIssues data sourceAgent).2 }

/-- The data payload of a successful `QualityAgent.process` response:
`approved_data` is the validated data on pass and `null` on fail. -/
def qaPayload (validation : ValidationResult) (data : JValue) : JValue :=
  .obj [ ("validation_passed", .bool validation.passed)
       , ("validation_result", .obj
           [ ("passed", .bool validation.passed)
           , ("issues", .arr (validation.issues.map fun i =>
               .obj [ ("type", .str i.type), ("message", .str i.message)
                    , ("severity", .str (match i.severity with
                        | .low => "low" | .medium => "medium" | .high => "high")) ]))
           , ("recommendations", .arr (validation.recommendations.map .str)) ])
       , ("approved_data", if validation.passed then data else .null) ]

/-- The agent body `QualityAgent.process`.  When `context.data` is `null` or `undefined`
the `validateOutput` of the source dereferences it (`data.content` after the
object-tag `typeof` guard admits `null`, or `data.datetime`), the `TypeError` is
caught by the surrounding `try` and converted into an error response;
every other value flows through `validateOutput` without throwing. -/
def qualityProcess (parseDate : JValue → Option Int) (dateNow : Int) (now : Nat)
    (message : AgentMessage) : AgentResponse :=
  let dataToValidate := ctxGet message.payload.context "data"
  let sourceAgent := ctxGet message.payload.context "sourceAgent"
  if dataToValidate.isNullish then
    createResponse .qa now .error .null
      (some "Cannot read properties of null or undefined")
  else
    createResponse .qa now .success
      (qaPayload (validateOutput parseDate dateNow dataToValidate sourceAgent) dataToValidate)
      none

/- ### Dispatcher (`ChiefOfStaffAgent`) -/

/-- The dispatcher `ChiefOfStaffAgent.delegateToAgent`: a registry miss yields the
synthetic error response (built by `createResponse` on the chief, with a
`null` data payload and the not-found message) without invoking anything;
a hit runs the agent and overwrites `processing_time` with the measured
wall-clock duration.  `startTime`/`endTime` are the two `Date.now()`
readings. -/
def delegateToAgent (registry : AgentType → Option Agent)
    (startTime endTime : Nat) (agentType : AgentType)
    (message : AgentMessage) : AgentResponse :=
  match registry agentType with
  | none =>
    createResponse .chief startTime .error .null
      (some ("Agent " ++ agentType.toStr ++ " not found"))
  | some agent =>
    { agent.process message with processing_time := some (endTime - startTime) }

/-- Replace the context of an envelope (the per-hop derived copy
`{...originalMessage, payload: {...payload, context}}`). -/
def withContext (msg : AgentMessage) (ctx : Ctx) : AgentMessage :=
  { msg with payload := { msg.payload with context := ctx } }

/-- Context chaining: after a successful response with truthy data, its
payload is merged into the context under `previousResult`; otherwise the
context is unchanged. -/
def nextContext (ctx : Ctx) (response : AgentResponse) : Ctx :=
  if response.status == .success && response.data.truthy then
    ctxSet ctx "previousResult" response.data
  else ctx

/-- The sequential loop of `executeWorkflow`, recorded as the list of
(context fed to the step, response of the step) pairs.  `clock i` gives
the two `Date.now()` readings of the `i`-th delegation. -/
def seqTrace (registry : AgentType → Option Agent) (clock : Nat → Nat × Nat)
    (msg : AgentMessage) : Nat → List AgentType → Ctx → List (Ctx × AgentResponse)
  | _, [], _ => []
  | i, a :: rest, ctx =>
    let response := delegateToAgent registry (clock i).1 (clock i).2 a (withContext msg ctx)
    (ctx, response) :: seqTrace registry clock msg (i + 1) rest (nextContext ctx response)

/-- The parallel fan-out of `executeWorkflow`: every planned agent gets
the original envelope; `Promise.all` preserves plan order. -/
def parRun (registry : AgentType → Option Agent) (clock : Nat → Nat × Nat)
    (msg : AgentMessage) : Nat → List AgentType → List AgentResponse
  | _, [] => []
  | i, a :: rest =>
    delegateToAgent registry (clock i).1 (clock i).2 a msg :: parRun registry clock msg (i + 1) rest

/-- The dispatcher body `ChiefOfStaffAgent.executeWorkflow`. -/
def executeWorkflow (registry : AgentType → Option Agent) (clock : Nat → Nat × Nat)
    (plan : ExecutionPlan) (msg : AgentMessage) : List AgentResponse :=
  if plan.parallel then
    parRun registry clock msg 0 plan.agents
  else
    (seqTrace registry clock msg 0 plan.agents msg.payload.context).map Prod.snd

/-- The `Date.now()` and `new Date()` readings one pass of the quality
gate makes for one response: the validation-message id, the two timing
readings of the `qa` delegation, the `qa` response id, and the wall-clock
date of the temporal check, plus the date-parsing oracle. -/
structure GateEnv where
  parseDate : JValue → Option Int
  dateNow : Int
  qaNow : Nat
  vNow : Nat
  startTime : Nat
  endTime : Nat

/-- The registry entry the gate delegates to: the constructor of
`ChiefOfStaffAgent` installs the built-in `QualityAgent` under `qa` (and
the interpreter under `interpreter`; only the `qa` entry is ever consulted
by `validateResults`). -/
def gateRegistry (env : GateEnv) : AgentType → Option Agent
  | .qa => some ⟨qualityProcess env.parseDate env.dateNow env.qaNow⟩
  | _ => none

/-- The validation envelope `validateResults` builds for one data payload:
note the hardcoded unknown `sourceAgent` tag of the source (its comment:
"Should be tracked better"). -/
def gateMessage (env : GateEnv) (data : JValue) : AgentMessage :=
  { id := "validation_" ++ toString env.vNow
    sender := .chief
    recipient := .qa
    timestamp := env.vNow
    payload :=
      { task := "validate_output"
        context := [("data", data), ("sourceAgent", .str "unknown")]
        priority := .medium
        validation_required := true }
    metadata :=
      { user_id := "current_user"
        session_id := "current_session"
        conversation_id := "current_conversation" } }

/-- One iteration of `ChiefOfStaffAgent.validateResults`: responses that
are not successes with truthy data pass through unchanged; otherwise the
`qa` delegate is consulted and the response is either approved (original
payload re-attached from `approved_data`) or rewritten to the fixed
validation failure. -/
def validateOne (env : GateEnv) (result : AgentResponse) : AgentResponse :=
  if result.status == .success && result.data.truthy then
    let validationResult :=
      delegateToAgent (gateRegistry env) env.startTime env.endTime .qa
        (gateMessage env result.data)
    if validationResult.status == .success
       && (jsGet validationResult.data "validation_passed").truthy then
      { result with validation_passed := some true
                    data := jsGet validationResult.data "approved_data" }
    else
      { result with status := .error
                    error := some "Validation failed"
                    validation_passed := some false }
  else result

/-- The gate loop `ChiefOfStaffAgent.validateResults`: the per-iteration oracle `env i`
carries the clock readings of the `i`-th pass (the loop keeps no state
across iterations). -/
def validateResults (env : Nat → GateEnv) : Nat → List AgentResponse → List AgentResponse
  | _, [] => []
  | i, r :: rs => validateOne (env i) r :: validateResults env (i + 1) rs

/- ### Response composer (`ChiefOfStaffAgent.composeFinalResponse`) -/

/-- The `processing_summary` record of the success branch of the composer. -/
structure ProcessingSummary where
  total_agents : Nat
  total_time : Nat
  complexity : Complexity
deriving DecidableEq, Repr

/-- The final result object of the composer.  The error branch of the
source carries `partial_results` and no summary; the success branch
carries `results` and a summary; absent fields are `none`. -/
structure FinalResponse where
  success : Bool
  message : String
  results : Option (List JValue)
  partial_results : Option (List JValue)
  intent : String
  processing_summary : Option ProcessingSummary

/-- The static per-intent phrase table of `generateSuccessMessage`. -/
def successMessages : List (String × String) :=
  [ ("schedule_meeting", "Meeting successfully scheduled across all platforms")
  , ("email_action", "Email drafted and sent successfully")
  , ("linkedin_action", "LinkedIn post created and scheduled")
  , ("task_management", "Task created and organized")
  , ("content_creation", "Content generated successfully") ]

/-- The phrase lookup `ChiefOfStaffAgent.generateSuccessMessage` (the `results` argument of
the source is unused there, and omitted). -/
def generateSuccessMessage (intent : String) : String :=
  if intent = "schedule_meeting" then "Meeting successfully scheduled across all platforms"
  else if intent = "email_action" then "Email drafted and sent successfully"
  else if intent = "linkedin_action" then "LinkedIn post created and scheduled"
  else if intent = "task_management" then "Task created and organized"
  else if intent = "content_creation" then "Content generated successfully"
  else "Task completed successfully"

/-- The composer `ChiefOfStaffAgent.composeFinalResponse`: partition into successes and
errors; any error yields the failure object (message = fixed prefix plus
the error strings joined by a comma — `Array.prototype.join` renders an
`undefined` error string as empty), otherwise the success object with the
summary metrics. -/
def composeFinalResponse (results : List AgentResponse) (intent : UserIntent) :
    FinalResponse :=
  let successfulResults := results.filter fun r => r.status == .success
  let errors := results.filter fun r => r.status == .error
  if errors.length > 0 then
    { success := false
      message := "Some operations failed: " ++
        joinWith ", " (errors.map fun e => e.error.getD "")
      results := none
      partial_results := some (successfulResults.map fun r => r.data)
      intent := intent.intent
      processing_summary := none }
  else
    { success := true
      message := generateSuccessMessage intent.intent
      results := some (successfulResults.map fun r => r.data)
      partial_results := none
      intent := intent.intent
      processing_summary := some
        { total_agents := results.length
          total_time := results.foldl (fun sum r => sum + r.processing_time.getD 0) 0
          complexity := intent.complexity } }

/-- Default response used as the `getD` fallback in index statements. -/
def dummyResponse : AgentResponse :=
  { id := "", status := .error }

/-- Default trace entry used as the `getD` fallback. -/
def dummyPair : Ctx × AgentResponse := ([], dummyResponse)

/- ### Concrete fixtures used by counterexamples and witnesses -/

/-- A date-parse oracle that deems every value an invalid date. -/
def pd0 : JValue → Option Int := fun _ => none

/-- A fixed gate environment for concrete runs of the quality gate. -/
def gateEnv0 : GateEnv :=
  { parseDate := pd0, dateNow := 0, qaNow := 3, vNow := 4, startTime := 1, endTime := 2 }

/-- The constant gate-environment stream. -/
def gateEnvs : Nat → GateEnv := fun _ => gateEnv0

/-- A deterministic clock stream for concrete dispatches. -/
def clock0 : Nat → Nat × Nat := fun i => (i, i + 1)

/-- A concrete user envelope. -/
def msg0 : AgentMessage :=
  { id := "msg_1"
    sender := .chief
    recipient := .interpreter
    timestamp := 0
    payload :=
      { task := "hello"
        context := [("userInput", .str "hello")]
        priority := .medium
        validation_required := true }
    metadata := { user_id := "u", session_id := "s", conversation_id := "c" } }

/-- An agent that always reports a domain error. -/
def errAgent : Agent := ⟨fun _ => createResponse .google 5 .error .null (some "boom")⟩

/-- An agent that always succeeds with a string payload. -/
def okAgent : Agent := ⟨fun _ => createResponse .content 6 .success (.str "ok") none⟩

/-- Registry for the sequential-dispatch witness: a failing first agent
and a succeeding second one. -/
def regSeq : AgentType → Option Agent
  | .google => some errAgent
  | .content => some okAgent
  | _ => none

/-- Registry for the missing-agent witness: only `content` registered. -/
def regMiss : AgentType → Option Agent
  | .content => some okAgent
  | _ => none

/-- A two-step sequential plan naming `google` then `content`. -/
def planSeq : ExecutionPlan := { agents := [.google, .content], parallel := false }

/-- A successful response carrying an innocuous object payload. -/
def okResp : AgentResponse :=
  { id := "s1", status := .success, data := .obj [("content", .str "hi")]
    processing_time := some 5 }

/-- An error response with a domain error string. -/
def errResp : AgentResponse :=
  { id := "e1", status := .error, data := .null, error := some "boom"
    processing_time := some 7 }

/-- A successful response whose string payload survives composition. -/
def okStrResp : AgentResponse :=
  { id := "s2", status := .success, data := .str "ok", processing_time := some 5 }

/-- A successful response whose `content` contains sixteen contiguous
digits immediately preceded by a letter (so the `\b\d{16}\b` regex does
not match). -/
def runLetterResp : AgentResponse :=
  { id := "content_1", status := .success
    data := .obj [("content", .str "a1234567890123456")] }

/-- A successful response whose `content` is exactly sixteen digits. -/
def runBareResp : AgentResponse :=
  { id := "content_2", status := .success
    data := .obj [("content", .str "1234567890123456")] }

/-- A 3001-character LinkedIn post body. -/
def longPost : String := String.mk (List.replicate 3001 'a')

/-- A successful response carrying an over-long `post` payload. -/
def longPostResp : AgentResponse :=
  { id := "linkedin_1", status := .success
    data := .obj [("post", .str longPost)] }

/-- A successful response whose payload is a bare (non-object) string, so
the structural check fails it. -/
def strDataResp : AgentResponse :=
  { id := "s3", status := .success, data := .str "x", processing_time := some 9 }

/-- Spec-side reading of the phrase of claim C9, a 16-digit contiguous digit run,
made word-boundary aware as the counterexample forces: the string splits
as `pre ++ run ++ post` where `run` is sixteen digits, the last character
of `pre` (if any) is not a word character, and the first character of
`post` (if any) is not a word character.  This names the property the
amended claim quantifies over; the source-side scanner is `hasCard16`. -/
def bareRun16 (s : String) : Prop :=
  ∃ pre run post : List Char,
    s.data = pre ++ run ++ post
    ∧ run.length = 16
    ∧ (∀ c ∈ run, c.isDigit = true)
    ∧ (∀ c, pre.getLast? = some c → isWordChar c = false)
    ∧ (∀ c, post.head? = some c → isWordChar c = false)

/-- An intent used when probing the composer. -/
def intentEmail : UserIntent :=
  { intent := "email_action", entities := [], confidence := 8/10
    platforms := [], complexity := .medium }

/-!
## Theorems

One theorem per claim of the specification, with counterexamples and
witnesses where the claim required correction or carries hypotheses.
-/

/-- A `schedule_meeting` intent with a single detected platform (and one
with none), used to probe the planner. -/
def intentGoogleOnly : UserIntent :=
  { intent := "schedule_meeting", entities := [], confidence := 9/10
    platforms := ["google"], complexity := .medium }

/-- A `schedule_meeting` intent with no detected platform. -/
def intentNoPlatform : UserIntent :=
  { intent := "schedule_meeting", entities := [], confidence := 9/10
    platforms := [], complexity := .low }

/-- C1 counterexample: a `schedule_meeting` intent with no detected
platform is planned as the single `microsoft` agent — an agent that was
not among the detected platforms — and with `parallel = true`, not the
claimed sequential (`parallel = false`) single-detected-platform plan.
(With `platforms = ["google"]` the flag is likewise `true`.) -/
theorem createExecutionPlan_claim_false :
    createExecutionPlan intentNoPlatform = { agents := [.microsoft], parallel := true }
    ∧ "microsoft" ∉ intentNoPlatform.platforms
    ∧ (createExecutionPlan intentGoogleOnly).agents = [.google]
    ∧ (createExecutionPlan intentGoogleOnly).parallel ≠ false := by
  refine ⟨rfl, ?_, rfl, ?_⟩ <;> decide

/-- C1 (amended): every `schedule_meeting` plan has `parallel = true`;
its agents are both calendar agents when both platforms were detected,
`[google]` when only `google` was, and `[microsoft]` otherwise (even when
`microsoft` was not detected); every intent name absent from the routing
table falls back to the single default `content` agent, sequential. -/
theorem createExecutionPlan_spec (intent : UserIntent) :
    (intent.intent = "schedule_meeting" →
      createExecutionPlan intent =
        { agents :=
            if intent.platforms.contains "google" && intent.platforms.contains "microsoft"
            then [.google, .microsoft]
            else if intent.platforms.contains "google" then [.google] else [.microsoft]
          parallel := true })
    ∧ (intent.intent ∉ ["schedule_meeting", "email_action", "linkedin_action",
          "task_management", "content_creation"] →
        createExecutionPlan intent = { agents := [.content], parallel := false }) := by
  constructor
  · intro h
    simp [createExecutionPlan, h]
  · intro h
    simp only [List.mem_cons, List.not_mem_nil, or_false, not_or] at h
    obtain ⟨h1, h2, h3, h4, h5⟩ := h
    simp [createExecutionPlan, h1, h2, h3, h4, h5]

/-- Witness for the amended C1 theorem at concrete intents: both branches
instantiated. -/
theorem createExecutionPlan_spec_witness :
    createExecutionPlan intentGoogleOnly = { agents := [.google], parallel := true }
    ∧ createExecutionPlan
        { intent := "mystery", entities := [], confidence := 1/2
          platforms := [], complexity := .low }
      = { agents := [.content], parallel := false } :=
  ⟨(createExecutionPlan_spec intentGoogleOnly).1 rfl,
   (createExecutionPlan_spec _).2 (by decide)⟩

/-- C6: the complexity level equals the claimed closed-form score — 0,
plus 2 for more than one platform, plus 1 for more than two people, plus
1 for a `schedule_meeting` or `content_creation` intent, plus 1 for any
date or time entity — mapped to `high` at ≥ 3, `medium` at ≥ 1, else
`low`. -/
theorem assessComplexity_spec (intentName : String) (entities : Ctx)
    (platforms : List String) :
    assessComplexity intentName entities platforms =
      (if ((if platforms.length > 1 then 2 else 0)
          + (if (ctxGet entities "people").truthy
               && numGT (lenVal (ctxGet entities "people")) 2 then 1 else 0)
          + (if intentName = "schedule_meeting" ∨ intentName = "content_creation"
             then 1 else 0)
          + (if (ctxGet entities "date").truthy || (ctxGet entities "time").truthy
             then 1 else 0) : Nat) ≥ 3
       then Complexity.high
       else if ((if platforms.length > 1 then 2 else 0)
          + (if (ctxGet entities "people").truthy
               && numGT (lenVal (ctxGet entities "people")) 2 then 1 else 0)
          + (if intentName = "schedule_meeting" ∨ intentName = "content_creation"
             then 1 else 0)
          + (if (ctxGet entities "date").truthy || (ctxGet entities "time").truthy
             then 1 else 0) : Nat) ≥ 1
       then Complexity.medium else Complexity.low) := by
  simp only [assessComplexity, List.mem_cons, List.not_mem_nil, or_false]
  split_ifs <;> rfl

/-- The `for`-loop of `parseIntent` returns the first rule accepted by
`find?`, in list order. -/
theorem firstIntent_eq_find (rules : List IntentRule) (input : String) :
    firstIntent rules input =
      (match rules.find? (fun r => patternTest r.alts input) with
       | some r => (r.name, r.weight)
       | none => ("general_query", 1/2)) := by
  induction rules with
  | nil => rfl
  | cons r rs ih =>
    by_cases h : patternTest r.alts input
    · simp [firstIntent, h, List.find?_cons_of_pos]
    · rw [List.find?_cons_of_neg _ (by simp [h])]
      simpa [firstIntent, h] using ih

/-- C7: intent classification is total (the embedding is a total
function), returns a non-empty intent name with confidence in [0, 1], and
the result is the first matching rule of the fixed ordered list — the
rule found by `find?` — with `general_query`/0.5 when none matches. -/
theorem parseIntent_spec (input : String) :
    (parseIntent input).1 ≠ ""
    ∧ 0 ≤ (parseIntent input).2 ∧ (parseIntent input).2 ≤ 1
    ∧ parseIntent input =
        (match intentRules.find? (fun r => patternTest r.alts input) with
         | some r => (r.name, r.weight)
         | none => ("general_query", 1/2)) := by
  refine ⟨?_, ?_, ?_, firstIntent_eq_find intentRules input⟩ <;>
    (simp only [parseIntent, intentRules, firstIntent]
     split_ifs <;> first | decide | norm_num)

/-- The sequential trace has one entry per planned agent. -/
theorem seqTrace_length (registry : AgentType → Option Agent) (clock : Nat → Nat × Nat)
    (msg : AgentMessage) :
    ∀ (agents : List AgentType) (i : Nat) (ctx : Ctx),
      (seqTrace registry clock msg i agents ctx).length = agents.length := by
  intro agents
  induction agents with
  | nil => intro i ctx; rfl
  | cons a rest ih => intro i ctx; simp [seqTrace, ih]

/-- The first sequential step runs on the original context. -/
theorem seqTrace_fst_zero (registry : AgentType → Option Agent) (clock : Nat → Nat × Nat)
    (msg : AgentMessage) (a : AgentType) (rest : List AgentType) (i : Nat) (ctx : Ctx) :
    ((seqTrace registry clock msg i (a :: rest) ctx).getD 0 dummyPair).1 = ctx := rfl

/-- Every slot of the sequential trace is the dispatch of the planned
agent at that position, on the envelope carrying the recorded
context — in particular every planned agent is dispatched, regardless of
earlier failures. -/
theorem seqTrace_snd (registry : AgentType → Option Agent) (clock : Nat → Nat × Nat)
    (msg : AgentMessage) :
    ∀ (agents : List AgentType) (i : Nat) (ctx : Ctx) (j : Nat), j < agents.length →
      ((seqTrace registry clock msg i agents ctx).getD j dummyPair).2 =
        delegateToAgent registry (clock (i + j)).1 (clock (i + j)).2 (agents.getD j .chief)
          (withContext msg ((seqTrace registry clock msg i agents ctx).getD j dummyPair).1) := by
  intro agents
  induction agents with
  | nil => intro i ctx j h; simp at h
  | cons a rest ih =>
    intro i ctx j h
    cases j with
    | zero => simp [seqTrace]
    | succ j2 =>
      have hidx : i + (j2 + 1) = (i + 1) + j2 := by omega
      simp only [seqTrace, List.getD_cons_succ, List.getD, hidx]
      exact ih (i + 1) _ j2 (by simpa using h)

/-- Successive contexts of the sequential trace are produced by the
chaining rule from the previous slot. -/
theorem seqTrace_fst_succ (registry : AgentType → Option Agent) (clock : Nat → Nat × Nat)
    (msg : AgentMessage) :
    ∀ (agents : List AgentType) (i : Nat) (ctx : Ctx) (j : Nat), j + 1 < agents.length →
      ((seqTrace registry clock msg i agents ctx).getD (j + 1) dummyPair).1 =
        nextContext ((seqTrace registry clock msg i agents ctx).getD j dummyPair).1
          ((seqTrace registry clock msg i agents ctx).getD j dummyPair).2 := by
  intro agents
  induction agents with
  | nil => intro i ctx j h; simp at h
  | cons a rest ih =>
    intro i ctx j h
    cases j with
    | zero =>
      cases rest with
      | nil => simp at h
      | cons b rest2 => simp [seqTrace, seqTrace_fst_zero]
    | succ j2 =>
      simp only [seqTrace, List.getD_cons_succ]
      exact ih (i + 1) _ j2 (by simpa using h)

/-- The parallel fan-out has one slot per planned agent. -/
theorem parRun_length (registry : AgentType → Option Agent) (clock : Nat → Nat × Nat)
    (msg : AgentMessage) :
    ∀ (agents : List AgentType) (i : Nat),
      (parRun registry clock msg i agents).length = agents.length := by
  intro agents
  induction agents with
  | nil => intro i; rfl
  | cons a rest ih => intro i; simp [parRun, ih]

/-- Every slot of the parallel fan-out dispatches the planned agent at
that position on the unmodified original envelope. -/
theorem parRun_getD (registry : AgentType → Option Agent) (clock : Nat → Nat × Nat)
    (msg : AgentMessage) :
    ∀ (agents : List AgentType) (i : Nat) (j : Nat), j < agents.length →
      (parRun registry clock msg i agents).getD j dummyResponse =
        delegateToAgent registry (clock (i + j)).1 (clock (i + j)).2 (agents.getD j .chief) msg := by
  intro agents
  induction agents with
  | nil => intro i j h; simp at h
  | cons a rest ih =>
    intro i j h
    cases j with
    | zero => simp [parRun]
    | succ j2 =>
      have hidx : i + (j2 + 1) = (i + 1) + j2 := by omega
      simp only [parRun, List.getD_cons_succ, hidx]
      exact ih (i + 1) j2 (by simpa using h)

/-- Projecting responses out of the trace commutes with indexing. -/
theorem getD_map_snd :
    ∀ (l : List (Ctx × AgentResponse)) (j : Nat), j < l.length →
      (l.map Prod.snd).getD j dummyResponse = (l.getD j dummyPair).2 := by
  intro l
  induction l with
  | nil => intro j h; simp at h
  | cons p rest ih =>
    intro j h
    cases j with
    | zero => rfl
    | succ j2 =>
      simp only [List.map_cons, List.getD_cons_succ]
      exact ih j2 (by simpa using h)

/-- C2: for a sequential plan the dispatcher collects exactly one response
per planned agent in plan order (every agent is dispatched even after an
earlier error), the first step receives the original context, each slot is
the dispatch of the planned agent of that slot on the recorded context, and the
context handed to the next step gains the `previousResult` payload exactly
when the slot succeeded with truthy (in particular non-null) data — after
an error response the context of the next agent is unmodified. -/
theorem executeWorkflow_sequential_spec (registry : AgentType → Option Agent)
    (clock : Nat → Nat × Nat) (plan : ExecutionPlan) (msg : AgentMessage)
    (hseq : plan.parallel = false) :
    executeWorkflow registry clock plan msg
      = (seqTrace registry clock msg 0 plan.agents msg.payload.context).map Prod.snd
    ∧ (executeWorkflow registry clock plan msg).length = plan.agents.length
    ∧ (0 < plan.agents.length →
        ((seqTrace registry clock msg 0 plan.agents msg.payload.context).getD 0 dummyPair).1
          = msg.payload.context)
    ∧ (∀ j, j < plan.agents.length →
        (executeWorkflow registry clock plan msg).getD j dummyResponse
          = ((seqTrace registry clock msg 0 plan.agents msg.payload.context).getD j dummyPair).2
        ∧ ((seqTrace registry clock msg 0 plan.agents msg.payload.context).getD j dummyPair).2
          = delegateToAgent registry (clock j).1 (clock j).2 (plan.agents.getD j .chief)
              (withContext msg
                ((seqTrace registry clock msg 0 plan.agents msg.payload.context).getD j dummyPair).1))
    ∧ (∀ j, j + 1 < plan.agents.length →
        ((((seqTrace registry clock msg 0 plan.agents msg.payload.context).getD j dummyPair).2.status
            = Status.success
          ∧ ((seqTrace registry clock msg 0 plan.agents msg.payload.context).getD j dummyPair).2.data.truthy
            = true) →
          ((seqTrace registry clock msg 0 plan.agents msg.payload.context).getD (j + 1) dummyPair).1
            = ctxSet ((seqTrace registry clock msg 0 plan.agents msg.payload.context).getD j dummyPair).1
                "previousResult"
                ((seqTrace registry clock msg 0 plan.agents msg.payload.context).getD j dummyPair).2.data)
        ∧ (¬(((seqTrace registry clock msg 0 plan.agents msg.payload.context).getD j dummyPair).2.status
              = Status.success
            ∧ ((seqTrace registry clock msg 0 plan.agents msg.payload.context).getD j dummyPair).2.data.truthy
              = true) →
          ((seqTrace registry clock msg 0 plan.agents msg.payload.context).getD (j + 1) dummyPair).1
            = ((seqTrace registry clock msg 0 plan.agents msg.payload.context).getD j dummyPair).1)) := by
  have hw : executeWorkflow registry clock plan msg
      = (seqTrace registry clock msg 0 plan.agents msg.payload.context).map Prod.snd := by
    simp [executeWorkflow, hseq]
  refine ⟨hw, ?_, ?_, ?_, ?_⟩
  · rw [hw]; simp [seqTrace_length]
  · intro h
    cases hag : plan.agents with
    | nil => rw [hag] at h; simp at h
    | cons a rest => exact seqTrace_fst_zero registry clock msg a rest 0 msg.payload.context
  · intro j hj
    constructor
    · rw [hw]
      exact getD_map_snd _ j (by simp [seqTrace_length, hj])
    · have := seqTrace_snd registry clock msg plan.agents 0 msg.payload.context j hj
      simpa using this
  · intro j hj
    have hchain := seqTrace_fst_succ registry clock msg plan.agents 0 msg.payload.context j hj
    constructor
    · intro hcond
      rw [hchain]
      unfold nextContext
      rw [if_pos (by simpa [Bool.and_eq_true, beq_iff_eq] using hcond)]
    · intro hcond
      rw [hchain]
      unfold nextContext
      rw [if_neg (by simpa [Bool.and_eq_true, beq_iff_eq] using hcond)]

/-- C8: whenever a planned slot names a capability with no registry
entry, the dispatcher emits for that slot the synthetic response built by
`createResponse` on the chief — status `error`, `null` data and the
"Agent ... not found" message — a constant that invokes no agent, while
every slot of the plan (this one included) is still the dispatch of its
planned agent, so the miss aborts nothing. -/
theorem executeWorkflow_missing_agent (registry : AgentType → Option Agent)
    (clock : Nat → Nat × Nat) (plan : ExecutionPlan) (msg : AgentMessage) (j : Nat)
    (hj : j < plan.agents.length)
    (hmiss : registry (plan.agents.getD j .chief) = none) :
    (executeWorkflow registry clock plan msg).length = plan.agents.length
    ∧ (executeWorkflow registry clock plan msg).getD j dummyResponse
        = createResponse .chief (clock j).1 .error .null
            (some ("Agent " ++ (plan.agents.getD j .chief).toStr ++ " not found"))
    ∧ ((executeWorkflow registry clock plan msg).getD j dummyResponse).status = Status.error
    ∧ (∀ k, k < plan.agents.length →
        ∃ m, (executeWorkflow registry clock plan msg).getD k dummyResponse
          = delegateToAgent registry (clock k).1 (clock k).2 (plan.agents.getD k .chief) m) := by
  by_cases hpar : plan.parallel = true
  · have hw : executeWorkflow registry clock plan msg = parRun registry clock msg 0 plan.agents := by
      simp [executeWorkflow, hpar]
    have hslot : ∀ k, k < plan.agents.length →
        (executeWorkflow registry clock plan msg).getD k dummyResponse
          = delegateToAgent registry (clock k).1 (clock k).2 (plan.agents.getD k .chief) msg := by
      intro k hk
      rw [hw]
      simpa using parRun_getD registry clock msg plan.agents 0 k hk
    have hdel : (executeWorkflow registry clock plan msg).getD j dummyResponse
        = createResponse .chief (clock j).1 .error .null
            (some ("Agent " ++ (plan.agents.getD j .chief).toStr ++ " not found")) := by
      rw [hslot j hj]
      unfold delegateToAgent
      rw [hmiss]
    refine ⟨?_, hdel, ?_, ?_⟩
    · rw [hw]; exact parRun_length registry clock msg plan.agents 0
    · rw [hdel]; rfl
    · intro k hk; exact ⟨msg, hslot k hk⟩
  · have hseq : plan.parallel = false := by
      cases hb : plan.parallel
      · rfl
      · exact absurd hb hpar
    have hspec := executeWorkflow_sequential_spec registry clock plan msg hseq
    have hslot : ∀ k, k < plan.agents.length →
        (executeWorkflow registry clock plan msg).getD k dummyResponse
          = delegateToAgent registry (clock k).1 (clock k).2 (plan.agents.getD k .chief)
              (withContext msg
                ((seqTrace registry clock msg 0 plan.agents msg.payload.context).getD k dummyPair).1) := by
      intro k hk
      have h1 := (hspec.2.2.2.1 k hk).1
      have h2 := (hspec.2.2.2.1 k hk).2
      rw [h1, h2]
    have hdel : (executeWorkflow registry clock plan msg).getD j dummyResponse
        = createResponse .chief (clock j).1 .error .null
            (some ("Agent " ++ (plan.agents.getD j .chief).toStr ++ " not found")) := by
      rw [hslot j hj]
      unfold delegateToAgent
      rw [hmiss]
    refine ⟨hspec.2.1, hdel, ?_, ?_⟩
    · rw [hdel]; rfl
    · intro k hk; exact ⟨_, hslot k hk⟩

/-- A truthy value is neither `null` nor `undefined`. -/
theorem truthy_not_nullish (v : JValue) (h : v.truthy = true) : v.isNullish = false := by
  cases v <;> simp_all [JValue.truthy, JValue.isNullish]

/-- The `validation_passed` field of the QA payload. -/
theorem jsGet_qaPayload_vp (v : ValidationResult) (d : JValue) :
    jsGet (qaPayload v d) "validation_passed" = .bool v.passed := rfl

/-- The `approved_data` field of the QA payload: the data on pass, `null`
on fail. -/
theorem jsGet_qaPayload_ad (v : ValidationResult) (d : JValue) :
    jsGet (qaPayload v d) "approved_data" = (if v.passed then d else .null) := rfl

/-- On the validation envelope of the gate, the QA agent reads the data and the
hardcoded `"unknown"` source tag from the context and (for a non-nullish
payload) returns the successful validation response. -/
theorem qualityProcess_gateMessage (env : GateEnv) (d : JValue)
    (hd : d.isNullish = false) :
    qualityProcess env.parseDate env.dateNow env.qaNow (gateMessage env d)
      = createResponse .qa env.qaNow .success
          (qaPayload (validateOutput env.parseDate env.dateNow d (.str "unknown")) d)
          none := by
  cases d with
  | undefined => simp [JValue.isNullish] at hd
  | null => simp [JValue.isNullish] at hd
  | bool b => rfl
  | num n => rfl
  | str s => rfl
  | arr es => rfl
  | obj fs => rfl

/-- Reduction of one gate pass on an eligible response: the outcome is
decided by `validateOutput` on the data of the response, tagged `"unknown"`. -/
theorem validateOne_eq (env : GateEnv) (r : AgentResponse)
    (h1 : r.status = Status.success) (h2 : r.data.truthy = true) :
    validateOne env r =
      (if (validateOutput env.parseDate env.dateNow r.data (.str "unknown")).passed then
        { r with validation_passed := some true, data := r.data }
      else
        { r with status := .error, error := some "Validation failed"
                 validation_passed := some false }) := by
  have hd : r.data.isNullish = false := truthy_not_nullish _ h2
  have hqa : delegateToAgent (gateRegistry env) env.startTime env.endTime .qa
      (gateMessage env r.data)
      = { createResponse .qa env.qaNow .success
            (qaPayload (validateOutput env.parseDate env.dateNow r.data (.str "unknown")) r.data)
            none
          with processing_time := some (env.endTime - env.startTime) } := by
    show { qualityProcess env.parseDate env.dateNow env.qaNow (gateMessage env r.data)
            with processing_time := some (env.endTime - env.startTime) } = _
    rw [qualityProcess_gateMessage env r.data hd]
  unfold validateOne
  rw [if_pos (by simp [h1, h2])]
  rw [hqa]
  generalize validateOutput env.parseDate env.dateNow r.data (JValue.str "unknown") = v
  obtain ⟨passed, issues, recs⟩ := v
  cases passed
  · rfl
  · rfl

/-- The gate leaves a response untouched unless it is a success with
truthy data. -/
theorem validateOne_bypass (env : GateEnv) (r : AgentResponse)
    (h : ¬(r.status = Status.success ∧ r.data.truthy = true)) :
    validateOne env r = r := by
  unfold validateOne
  rw [if_neg (by simpa [Bool.and_eq_true, beq_iff_eq] using h)]

/-- The gate output list is the slot-wise gate pass of the input list. -/
theorem validateResults_getD (env : Nat → GateEnv) :
    ∀ (results : List AgentResponse) (i j : Nat), j < results.length →
      (validateResults env i results).getD j dummyResponse
        = validateOne (env (i + j)) (results.getD j dummyResponse) := by
  intro results
  induction results with
  | nil => intro i j h; simp at h
  | cons r rest ih =>
    intro i j h
    cases j with
    | zero => rfl
    | succ j2 =>
      have hidx : i + (j2 + 1) = (i + 1) + j2 := by omega
      simp only [validateResults, List.getD_cons_succ, hidx]
      exact ih (i + 1) j2 (by simpa using h)

/-- The gate preserves the number of responses. -/
theorem validateResults_length (env : Nat → GateEnv) :
    ∀ (results : List AgentResponse) (i : Nat),
      (validateResults env i results).length = results.length := by
  intro results
  induction results with
  | nil => intro i; rfl
  | cons r rest ih => intro i; simp [validateResults, ih]

/-- C3: the quality gate maps the response list slot-wise; a response that
is not a success with truthy (hence non-null) data passes through
unchanged; an eligible response passes exactly when `validateOutput`
recorded zero high-severity issues (medium and low issues never block),
in which case it keeps its original data (re-attached through
`approved_data`) and gains `validation_passed = true`; otherwise it is
rewritten to `status = error` with the fixed "Validation failed" message
and `validation_passed = false`. -/
theorem validateResults_spec (env : Nat → GateEnv) (results : List AgentResponse) :
    (∀ i, (validateResults env i results).length = results.length)
    ∧ (∀ i j, j < results.length →
        (validateResults env i results).getD j dummyResponse
          = validateOne (env (i + j)) (results.getD j dummyResponse))
    ∧ (∀ (e : GateEnv) (r : AgentResponse), r.status ≠ Status.success →
        validateOne e r = r)
    ∧ (∀ (e : GateEnv) (r : AgentResponse), r.data.truthy = false →
        validateOne e r = r)
    ∧ (∀ (e : GateEnv) (r : AgentResponse),
        r.status = Status.success → r.data.truthy = true →
        (validateOutput e.parseDate e.dateNow r.data (.str "unknown")).passed
          = (((validateOutput e.parseDate e.dateNow r.data (.str "unknown")).issues.filter
                fun i => i.severity == Severity.high).length == 0)
        ∧ ((validateOutput e.parseDate e.dateNow r.data (.str "unknown")).passed = true →
            validateOne e r = { r with validation_passed := some true, data := r.data })
        ∧ ((validateOutput e.parseDate e.dateNow r.data (.str "unknown")).passed = false →
            validateOne e r
              = { r with status := .error, error := some "Validation failed"
                         validation_passed := some false })) := by
  refine ⟨validateResults_length env results, validateResults_getD env results, ?_, ?_, ?_⟩
  · intro e r h
    exact validateOne_bypass e r (fun hc => h hc.1)
  · intro e r h
    exact validateOne_bypass e r (fun hc => by rw [h] at hc; exact Bool.false_ne_true hc.2)
  · intro e r h1 h2
    refine ⟨rfl, ?_, ?_⟩
    · intro hp
      rw [validateOne_eq e r h1 h2, if_pos hp]
    · intro hp
      rw [validateOne_eq e r h1 h2, if_neg (by rw [hp]; exact Bool.false_ne_true)]

/-- Witness for C3 at concrete responses: an error response bypasses the
gate, and a clean successful payload is approved with its data kept. -/
theorem validateResults_spec_witness :
    (validateResults gateEnvs 0 [okResp, errResp]).length = 2
    ∧ validateOne gateEnv0 errResp = errResp
    ∧ validateOne gateEnv0 okResp
        = { okResp with validation_passed := some true, data := okResp.data } := by
  have h := validateResults_spec gateEnvs [okResp, errResp]
  refine ⟨h.1 0, ?_, ?_⟩
  · exact h.2.2.1 gateEnv0 errResp (by decide)
  · exact (h.2.2.2.2 gateEnv0 okResp rfl rfl).2.1 (by decide)

/-- C10: a successful, truthy-data response that fails the gate keeps its
id, data, processing time and next-agent hint unchanged — only status,
error and validation_passed are rewritten — even though the QA response
itself reports `approved_data = null` for the failed validation. -/
theorem validateOne_frame (env : GateEnv) (r : AgentResponse)
    (h1 : r.status = Status.success) (h2 : r.data.truthy = true)
    (h3 : (validateOutput env.parseDate env.dateNow r.data (.str "unknown")).passed = false) :
    validateOne env r
      = { r with status := .error, error := some "Validation failed"
                 validation_passed := some false }
    ∧ (validateOne env r).data = r.data
    ∧ (validateOne env r).id = r.id
    ∧ (validateOne env r).processing_time = r.processing_time
    ∧ (validateOne env r).next_agent = r.next_agent
    ∧ (validateOne env r).status = Status.error
    ∧ (validateOne env r).error = some "Validation failed"
    ∧ (validateOne env r).validation_passed = some false
    ∧ jsGet (qualityProcess env.parseDate env.dateNow env.qaNow
        (gateMessage env r.data)).data "approved_data" = JValue.null := by
  have hmain : validateOne env r
      = { r with status := .error, error := some "Validation failed"
                 validation_passed := some false } := by
    rw [validateOne_eq env r h1 h2, if_neg (by rw [h3]; exact Bool.false_ne_true)]
  refine ⟨hmain, ?_, ?_, ?_, ?_, ?_, ?_, ?_, ?_⟩
  · rw [hmain]
  · rw [hmain]
  · rw [hmain]
  · rw [hmain]
  · rw [hmain]
  · rw [hmain]
  · rw [hmain]
  · rw [qualityProcess_gateMessage env r.data (truthy_not_nullish _ h2)]
    have had := jsGet_qaPayload_ad
      (validateOutput env.parseDate env.dateNow r.data (.str "unknown")) r.data
    rw [h3, if_neg Bool.false_ne_true] at had
    exact had

/-- Witness for C10 at a concrete failing response (a bare string payload
fails the structural check): frame fields survive, the QA side reports a
null `approved_data`. -/
theorem validateOne_frame_witness :
    validateOne gateEnv0 strDataResp
      = { strDataResp with status := .error, error := some "Validation failed"
                           validation_passed := some false }
    ∧ (validateOne gateEnv0 strDataResp).data = strDataResp.data
    ∧ (validateOne gateEnv0 strDataResp).id = "s3"
    ∧ (validateOne gateEnv0 strDataResp).processing_time = some 9 := by
  have h := validateOne_frame gateEnv0 strDataResp rfl rfl rfl
  exact ⟨h.1, h.2.1, h.2.2.1, h.2.2.2.1⟩

/-- Witness for C2 at a concrete run: a two-step sequential plan whose
first agent fails still yields two responses, and the second step receives
the original context unmodified. -/
theorem executeWorkflow_sequential_spec_witness :
    (executeWorkflow regSeq clock0 planSeq msg0).length = 2
    ∧ ((seqTrace regSeq clock0 msg0 0 planSeq.agents msg0.payload.context).getD 1 dummyPair).1
        = msg0.payload.context := by
  have h := executeWorkflow_sequential_spec regSeq clock0 planSeq msg0 rfl
  refine ⟨h.2.1, ?_⟩
  have hst : ((seqTrace regSeq clock0 msg0 0 planSeq.agents msg0.payload.context).getD 0
      dummyPair).2.status = Status.error := rfl
  have hres := (h.2.2.2.2 0 (by decide)).2
    (by intro hc; rw [hst] at hc; exact absurd hc.1 (by decide))
  rw [hres, h.2.2.1 (by decide)]

/-- Witness for C8 at a concrete run: the unregistered `google` slot is a
synthetic not-found error, and the registered `content` slot still runs
and succeeds. -/
theorem executeWorkflow_missing_agent_witness :
    (executeWorkflow regMiss clock0 planSeq msg0).length = 2
    ∧ ((executeWorkflow regMiss clock0 planSeq msg0).getD 0 dummyResponse).status = Status.error
    ∧ ((executeWorkflow regMiss clock0 planSeq msg0).getD 0 dummyResponse).error
        = some "Agent google not found"
    ∧ ((executeWorkflow regMiss clock0 planSeq msg0).getD 1 dummyResponse).status
        = Status.success := by
  have h := executeWorkflow_missing_agent regMiss clock0 planSeq msg0 0 (by decide) rfl
  refine ⟨h.1, h.2.2.1, ?_, ?_⟩
  · rw [h.2.1]; rfl
  · obtain ⟨m, hm⟩ := h.2.2.2 1 (by decide)
    rw [hm]; rfl

/-- The matcher `consumeDigits` consumes an all-digit run of matching length and
returns the remainder. -/
theorem consumeDigits_run (run post : List Char)
    (hdig : ∀ c ∈ run, c.isDigit = true) :
    consumeDigits run.length (run ++ post) = some post := by
  induction run with
  | nil => rfl
  | cons c cs ih =>
    have hc := hdig c (List.mem_cons_self c cs)
    simp only [List.length_cons, List.cons_append, consumeDigits, hc, if_true]
    exact ih fun d hd => hdig d (List.mem_cons_of_mem c hd)

/-- If the input splits as `pre ++ rest` at a word boundary (the last
character of `pre`, if any, is not a word character; an empty `pre` is
only a boundary when the scan starts unprimed) and the pattern matches at
`rest` with a word boundary after it, the bounded scan fires. -/
theorem scanBounded_of_split (pat : List Char → Option (List Char)) :
    ∀ (pre rest : List Char) (prevW : Bool),
      (pre = [] → prevW = false) →
      (∀ c, pre.getLast? = some c → isWordChar c = false) →
      rest ≠ [] →
      (match pat rest with
       | some [] => true
       | some (d :: _) => !isWordChar d
       | none => false) = true →
      scanBounded pat prevW (pre ++ rest) = true := by
  intro pre
  induction pre with
  | nil =>
    intro rest prevW hpw hlast hne hpat
    cases rest with
    | nil => exact absurd rfl hne
    | cons c cs =>
      simp only [List.nil_append, scanBounded, hpw rfl, Bool.not_false, Bool.true_and, hpat,
        Bool.true_or]
  | cons p ps ih =>
    intro rest prevW hpw hlast hne hpat
    simp only [List.cons_append, scanBounded, Bool.or_eq_true]
    right
    apply ih rest (isWordChar p) ?_ ?_ hne hpat
    · intro hps
      apply hlast p
      rw [hps]
      rfl
    · intro c hc
      apply hlast c
      cases ps with
      | nil => cases hc
      | cons q qs => rw [List.getLast?_cons_cons]; exact hc

/-- A word-boundary-delimited sixteen-digit run makes the credit-card
scanner of `checkContentSafety` fire. -/
theorem hasCard16_of_bareRun16 (s : String) (h : bareRun16 s) : hasCard16 s = true := by
  obtain ⟨pre, run, post, hs, hlen, hdig, hpre, hpost⟩ := h
  unfold hasCard16
  rw [hs, List.append_assoc]
  apply scanBounded_of_split (consumeDigits 16) pre (run ++ post) false (fun _ => rfl) hpre
  · intro hemp
    have h0 : (run ++ post).length = 0 := by rw [hemp]; rfl
    rw [List.length_append] at h0
    omega
  · rw [← hlen, consumeDigits_run run post hdig]
    cases post with
    | nil => rfl
    | cons d ds => simpa using hpost d rfl

/-- The credit-card regex fires only on non-empty strings. -/
theorem bareRun16_ne_empty (s : String) (h : bareRun16 s) : s ≠ "" := by
  obtain ⟨pre, run, post, hs, hlen, _, _, _⟩ := h
  intro hemp
  rw [hemp] at hs
  have h0 : (0 : Nat) = (pre ++ run ++ post).length := congrArg List.length hs
  rw [List.length_append, List.length_append] at h0
  omega

/-- A high-severity safety issue forces `validateOutput` to fail whenever
the `content` field of the object is a string the card scanner matches. -/
theorem validateOutput_card16_fails (pd : JValue → Option Int) (dn : Int)
    (fs : List (String × JValue)) (src : JValue) (s : String)
    (h2 : jsGet (JValue.obj fs) "content" = JValue.str s)
    (hne : s ≠ "") (hsc : hasCard16 s = true) :
    (validateOutput pd dn (JValue.obj fs) src).passed = false := by
  have hsafety : safetyIssues (JValue.obj fs)
      = [⟨"safety", "Content safety issue: Potentially sensitive information detected",
          .high⟩] := by
    unfold safetyIssues
    rw [h2]
    rw [if_pos (by simp [JValue.typeofStr, JValue.truthy, hne])]
    unfold checkContentSafety
    rw [if_pos (by simp [jsToString, hsc])]
    rfl
  simp only [validateOutput, hsafety, List.filter_append, List.length_append]
  rw [beq_eq_false_iff_ne]
  have h1 : (List.filter (fun i => i.severity == Severity.high)
      [(⟨"safety", "Content safety issue: Potentially sensitive information detected",
         Severity.high⟩ : Issue)]).length = 1 := rfl
  omega

set_option maxRecDepth 20000 in
/-- C9 counterexample: `"a1234567890123456"` contains a contiguous run of
sixteen digits (shown explicitly as an all-digit infix of length 16), yet
because the run is preceded by a word character the `\b\d{16}\b` regex
does not match, the safety check stays silent and the gate approves the
response instead of rewriting it to an error. -/
theorem contentRun16_claim_false :
    infixMatch ("1234567890123456".data) ("a1234567890123456".data) = true
    ∧ ("1234567890123456".data.all Char.isDigit) = true
    ∧ ("1234567890123456".data.length) = 16
    ∧ validateOne gateEnv0 runLetterResp
        = { runLetterResp with validation_passed := some true, data := runLetterResp.data }
    ∧ (validateOne gateEnv0 runLetterResp).status = Status.success := by
  exact ⟨by decide, by decide, by decide, rfl, rfl⟩

/-- C9 (amended): a successful response whose `content` string contains a
sixteen-digit contiguous run that is word-boundary delimited (not
immediately preceded or followed by a letter, digit or underscore) is
flagged high-severity by the content-safety check and rewritten by the
gate to `status = error` with `validation_passed = false`. -/
theorem contentRun16_spec (env : GateEnv) (r : AgentResponse) (s : String)
    (h1 : r.status = Status.success)
    (h2 : jsGet r.data "content" = JValue.str s)
    (h3 : bareRun16 s) :
    validateOne env r
      = { r with status := .error, error := some "Validation failed"
                 validation_passed := some false } := by
  obtain ⟨fs, hdata⟩ : ∃ fs, r.data = JValue.obj fs := by
    cases hv : r.data with
    | obj fs => exact ⟨fs, rfl⟩
    | undefined => rw [hv] at h2; cases h2
    | null => rw [hv] at h2; cases h2
    | bool b => rw [hv] at h2; cases h2
    | num n => rw [hv] at h2; cases h2
    | str t => rw [hv] at h2; cases h2
    | arr es => rw [hv] at h2; cases h2
  have h2b := h2
  rw [hdata] at h2b
  have htr : r.data.truthy = true := by rw [hdata]; rfl
  have hpf : (validateOutput env.parseDate env.dateNow r.data (JValue.str "unknown")).passed
      = false := by
    rw [hdata]
    exact validateOutput_card16_fails env.parseDate env.dateNow fs _ s h2b
      (bareRun16_ne_empty s h3) (hasCard16_of_bareRun16 s h3)
  rw [validateOne_eq env r h1 htr, if_neg (by rw [hpf]; exact Bool.false_ne_true)]

/-- Witness for the amended C9 at a concrete response whose content is a
bare sixteen-digit string. -/
theorem contentRun16_spec_witness :
    validateOne gateEnv0 runBareResp
      = { runBareResp with status := .error, error := some "Validation failed"
                           validation_passed := some false } := by
  apply contentRun16_spec gateEnv0 runBareResp "1234567890123456" rfl rfl
  refine ⟨[], "1234567890123456".data, [], rfl, by decide, by decide, ?_, ?_⟩
  · intro c hc; cases hc
  · intro c hc; cases hc

/-- C4 evaluation: the source hardcodes the unknown `sourceAgent` tag in every
validation request (its own comment: "Should be tracked better"), so the
LinkedIn platform-limit check never applies through the gate: a
3001-character post raises no issue and no recommendation under the
`"unknown"` tag and sails through the gate approved, while the very same
payload tagged `"linkedin"` would receive the medium `platform_limit`
issue with the trim recommendation the claim describes. -/
theorem sourceAgent_untagged_behavior :
    validateOutput pd0 0 (JValue.obj [("post", .str longPost)]) (JValue.str "unknown")
      = { passed := true, issues := [], recommendations := [] }
    ∧ validateOutput pd0 0 (JValue.obj [("post", .str longPost)]) (JValue.str "linkedin")
      = { passed := true
          issues := [⟨"platform_limit", "LinkedIn post exceeds character limit", .medium⟩]
          recommendations := ["Trim content to under 3000 characters"] }
    ∧ validateOne gateEnv0 longPostResp
        = { longPostResp with validation_passed := some true, data := longPostResp.data }
    ∧ (validateOne gateEnv0 longPostResp).validation_passed = some true := by
  have hlen : longPost.length = 3001 := by
    show (List.replicate 3001 'a').length = 3001
    rw [List.length_replicate]
  have hne : longPost ≠ "" := by
    intro h
    have h0 := congrArg String.length h
    rw [hlen] at h0
    exact absurd h0 (by decide)
  have hstr : structureIssues (JValue.obj [("post", .str longPost)]) = [] := rfl
  have hsaf : safetyIssues (JValue.obj [("post", .str longPost)]) = [] := rfl
  have htemp : temporalIssues pd0 0 (JValue.obj [("post", .str longPost)]) = [] := rfl
  have hpost : jsGet (JValue.obj [("post", .str longPost)]) "post" = JValue.str longPost := rfl
  have hsval : lenVal (JValue.str longPost) = JValue.num 3001 := by
    show JValue.num (Int.ofNat longPost.length) = JValue.num 3001
    rw [hlen]
    rfl
  have hplatU : platformIssues (JValue.obj [("post", .str longPost)]) (JValue.str "unknown")
      = ([], []) := rfl
  have hplatL : platformIssues (JValue.obj [("post", .str longPost)]) (JValue.str "linkedin")
      = ([⟨"platform_limit", "LinkedIn post exceeds character limit", .medium⟩],
         ["Trim content to under 3000 characters"]) := by
    unfold platformIssues
    rw [hpost, hsval]
    rw [if_pos (by simp [JValue.isStr, JValue.truthy, hne, numGT])]
  have h1 : validateOutput pd0 0 (JValue.obj [("post", .str longPost)]) (JValue.str "unknown")
      = { passed := true, issues := [], recommendations := [] } := by
    unfold validateOutput
    rw [hstr, hsaf, htemp, hplatU]
    rfl
  have h2 : validateOutput pd0 0 (JValue.obj [("post", .str longPost)]) (JValue.str "linkedin")
      = { passed := true
          issues := [⟨"platform_limit", "LinkedIn post exceeds character limit", .medium⟩]
          recommendations := ["Trim content to under 3000 characters"] } := by
    unfold validateOutput
    rw [hstr, hsaf, htemp, hplatL]
    rfl
  have hpass : (validateOutput gateEnv0.parseDate gateEnv0.dateNow longPostResp.data
      (JValue.str "unknown")).passed = true :=
    congrArg ValidationResult.passed h1
  have hv := validateOne_eq gateEnv0 longPostResp rfl rfl
  have hone : validateOne gateEnv0 longPostResp
      = { longPostResp with validation_passed := some true, data := longPostResp.data } := by
    rw [hv, if_pos hpass]
  exact ⟨h1, h2, hone, by rw [hone]⟩

/-- The phrase table: `generateSuccessMessage` is the lookup in the static phrase table with
the generic fallback phrase. -/
theorem generateSuccessMessage_eq_lookup (intent : String) :
    generateSuccessMessage intent
      = (successMessages.lookup intent).getD "Task completed successfully" := by
  by_cases k1 : intent = "schedule_meeting"
  · subst k1; rfl
  by_cases k2 : intent = "email_action"
  · subst k2; rfl
  by_cases k3 : intent = "linkedin_action"
  · subst k3; rfl
  by_cases k4 : intent = "task_management"
  · subst k4; rfl
  by_cases k5 : intent = "content_creation"
  · subst k5; rfl
  have e1 : (intent == "schedule_meeting") = false := beq_eq_false_iff_ne.mpr k1
  have e2 : (intent == "email_action") = false := beq_eq_false_iff_ne.mpr k2
  have e3 : (intent == "linkedin_action") = false := beq_eq_false_iff_ne.mpr k3
  have e4 : (intent == "task_management") = false := beq_eq_false_iff_ne.mpr k4
  have e5 : (intent == "content_creation") = false := beq_eq_false_iff_ne.mpr k5
  unfold generateSuccessMessage successMessages
  rw [if_neg k1, if_neg k2, if_neg k3, if_neg k4, if_neg k5]
  simp only [List.lookup, e1, e2, e3, e4, e5]
  rfl

/-- C5 counterexample: with one failed agent whose error string is
`"boom"`, the composed message is the fixed prefix followed by the
error strings — not the bare concatenation `"boom"` of the error strings
the claim describes. -/
theorem composeFinalResponse_claim_false :
    (composeFinalResponse [okStrResp, errResp] intentEmail).message
      = "Some operations failed: boom"
    ∧ (composeFinalResponse [okStrResp, errResp] intentEmail).message ≠ "boom" := by
  exact ⟨rfl, by decide⟩

/-- C5 (amended): with at least one error response the composer returns
`success = false`, a message that is the fixed prefix
"Some operations failed: " followed by the error strings joined by a
comma, `partial_results` holding exactly the data of the successful responses,
and the intent name; with all responses successful it returns
`success = true`, the phrase-table message (generic fallback for absent
intents), the ordered payload list, and a summary carrying the response
count, the summed processing times and the complexity of the intent. -/
theorem composeFinalResponse_spec (results : List AgentResponse) (intent : UserIntent) :
    ((results.filter fun r => r.status == Status.error).length > 0 →
      composeFinalResponse results intent =
        { success := false
          message := "Some operations failed: "
            ++ joinWith ", " ((results.filter fun r => r.status == Status.error).map
                 fun e => e.error.getD "")
          results := none
          partial_results := some ((results.filter fun r => r.status == Status.success).map
            fun r => r.data)
          intent := intent.intent
          processing_summary := none })
    ∧ ((∀ r ∈ results, r.status = Status.success) →
      composeFinalResponse results intent =
        { success := true
          message := (successMessages.lookup intent.intent).getD "Task completed successfully"
          results := some (results.map fun r => r.data)
          partial_results := none
          intent := intent.intent
          processing_summary := some
            { total_agents := results.length
              total_time := results.foldl (fun sum r => sum + r.processing_time.getD 0) 0
              complexity := intent.complexity } }) := by
  constructor
  · intro h
    simp only [composeFinalResponse]
    rw [if_pos h]
  · intro h
    have herr : (results.filter fun r => r.status == Status.error) = [] := by
      apply List.filter_eq_nil_iff.mpr
      intro r hr
      simp [h r hr]
    have hsucc : (results.filter fun r => r.status == Status.success) = results := by
      apply List.filter_eq_self.mpr
      intro r hr
      simp [h r hr]
    simp only [composeFinalResponse]
    rw [if_neg (by rw [herr]; simp), hsucc, generateSuccessMessage_eq_lookup]

/-- Witness for the amended C5 at concrete inputs: one mixed run and one
all-success run. -/
theorem composeFinalResponse_spec_witness :
    composeFinalResponse [okStrResp, errResp] intentEmail
      = { success := false, message := "Some operations failed: boom"
          results := none, partial_results := some [.str "ok"]
          intent := "email_action", processing_summary := none }
    ∧ composeFinalResponse [okStrResp] intentEmail
      = { success := true, message := "Email drafted and sent successfully"
          results := some [.str "ok"], partial_results := none
          intent := "email_action"
          processing_summary := some
            { total_agents := 1, total_time := 5, complexity := .medium } } := by
  constructor
  · exact ((composeFinalResponse_spec [okStrResp, errResp] intentEmail).1 (by decide)).trans rfl
  · exact ((composeFinalResponse_spec [okStrResp] intentEmail).2 (by decide)).trans rfl

end ChiefOfStaff
